import Mathlib

/-!
Shallow embedding of `src/unit.rs` from the `modular-polynomial` repository.

The source defines a single value type `Unit` (a monomial term
`coef · x^xpow · y^ypow`) over arbitrary-precision integers (`BigInt`),
with arithmetic operators, an ordering, modular reduction, exponentiation,
a Frobenius rescaling, and a `Display` implementation.

`BigInt` is embedded as `ℤ`.  Rust `BigInt` division (`/`) truncates toward
zero, which is `Int.tdiv`; Rust `BigInt` remainder (`%`) takes the sign of
the dividend, which is `Int.tmod`.  Both panic in Rust when the divisor is
zero; the embedding surfaces that failure as the error path of `Except`.
Strings are Lean `String`s (a structure over `List Char`), and Rust's
`str::trim_end` is embedded as `trimEnd` below.
-/

namespace ModPoly

/-- Embedding of `struct Unit { coef: BigInt, xpow: BigInt, ypow: BigInt }`
(src/unit.rs, lines 14-18). -/
structure Unit where
  coef : ℤ
  xpow : ℤ
  ypow : ℤ
  deriving DecidableEq, Repr

/-- Embedding of Rust `str::trim_end`: remove trailing whitespace characters.
Defined directly on the character list underlying the string. -/
def trimEnd (s : String) : String :=
  String.mk ((s.data.reverse.dropWhile Char.isWhitespace).reverse)

/-- Error raised when the underlying big-integer division or remainder has a
zero divisor (in the Rust source this is a panic of `BigInt`'s `/` / `%`). -/
inductive DivError where
  | divisionByZero
  deriving DecidableEq, Repr

namespace Unit

/-- Embedding of `impl_op_ex!(* |a: &Unit, b: &Unit| -> Unit ...)`
(src/unit.rs, lines 20-26).  The `impl_op_ex!` macro derives the by-value and
by-reference operator variants from this single body, so one Lean function
models all of them. -/
def mul (a b : Unit) : Unit :=
  { coef := a.coef * b.coef
    xpow := a.xpow + b.xpow
    ypow := a.ypow + b.ypow }

/-- Embedding of `impl_op_ex!(/ |a: &Unit, b: &Unit| -> Unit ...)`
(src/unit.rs, lines 28-34).  `BigInt` division truncates toward zero
(`Int.tdiv`) and panics when the divisor is zero; the panic is surfaced as
the `Except.error DivError.divisionByZero` path. -/
def divide (a b : Unit) : Except DivError Unit :=
  if b.coef = 0 then .error .divisionByZero
  else .ok
    { coef := Int.tdiv a.coef b.coef
      xpow := a.xpow - b.xpow
      ypow := a.ypow - b.ypow }

/-- Embedding of `impl_op_ex!(- |a: &Unit| -> Unit ...)`
(src/unit.rs, lines 36-42). -/
def neg (a : Unit) : Unit :=
  { coef := -a.coef
    xpow := a.xpow
    ypow := a.ypow }

/-- Embedding of `Unit::equal_order` (src/unit.rs, lines 45-47). -/
def equal_order (a b : Unit) : Bool :=
  a.xpow == b.xpow && a.ypow == b.ypow

/-- Embedding of `Unit::power` (src/unit.rs, lines 48-57).
`num_traits::pow` on `BigInt` with a `usize` exponent is exact integer
exponentiation with `pow(_, 0) = 1` (also for base 0), which is `HPow` on
`ℤ` with a `ℕ` exponent; `&self.xpow * val` multiplies a `BigInt` by the
`usize`. -/
def power (a : Unit) (val : ℕ) : Unit :=
  { coef := a.coef ^ val
    xpow := a.xpow * (val : ℤ)
    ypow := a.ypow * (val : ℤ) }

/-- Embedding of `Unit::to_frob` (src/unit.rs, lines 58-64). -/
def to_frob (a : Unit) (val : ℕ) : Unit :=
  { coef := a.coef
    xpow := a.xpow * (val : ℤ)
    ypow := a.ypow * (val : ℤ) }

/-- Embedding of `Unit::modular` (src/unit.rs, lines 65-71).
`BigInt`'s `%` is the truncated remainder (sign follows the dividend),
which is `Int.tmod`; it panics when the divisor is zero, surfaced here as
the error path. -/
def modular (a : Unit) (val : ℤ) : Except DivError Unit :=
  if val = 0 then .error .divisionByZero
  else .ok
    { coef := Int.tmod a.coef val
      xpow := a.xpow
      ypow := a.ypow }

/-- Embedding of `Unit::is_zero` (src/unit.rs, lines 72-74). -/
def is_zero (a : Unit) : Bool :=
  a.coef == 0

/-- Embedding of `Unit::has_y` (src/unit.rs, lines 76-78). -/
def has_y (a : Unit) : Bool :=
  a.ypow != 0

/-- Embedding of `impl Ord for Unit` (src/unit.rs, lines 81-95). -/
def cmp (a b : Unit) : Ordering :=
  if a.xpow < b.xpow then .lt
  else if a.xpow > b.xpow then .gt
  else if a.ypow < b.ypow then .lt
  else if a.ypow > b.ypow then .gt
  else .eq

/-- Embedding of `#[derive(Default)]` for `Unit`: every `BigInt` field
defaults to 0, so the default-constructed term is the zero term. -/
def defaultUnit : Unit :=
  { coef := 0, xpow := 0, ypow := 0 }

/-- The `x` exponent part of the rendering: the body of each
`if self.xpow != Zero::zero() { ... }` block in `impl fmt::Display for Unit`
(src/unit.rs), which pushes `"x"` or `"x^<xpow>"` followed by `" "`. -/
def xpart (p : ℤ) : String :=
  if p ≠ 0 then (if p = 1 then "x" else "x^" ++ toString p) ++ " " else ""

/-- The `y` exponent part of the rendering: the body of each
`if self.ypow != Zero::zero() { ... }` block in `impl fmt::Display for Unit`
(src/unit.rs), which pushes `"y"` or `"y^<ypow>"` with no trailing space. -/
def ypart (p : ℤ) : String :=
  if p ≠ 0 then (if p = 1 then "y" else "y^" ++ toString p) else ""

/-- Embedding of `impl fmt::Display for Unit` (src/unit.rs, lines 103-185).
`BigInt::to_string` is base-10 with a `-` sign for negatives, matching
`toString` on `ℤ`. -/
def display (u : Unit) : String :=
  if u.coef = 1 then
    if u.xpow = 0 ∧ u.ypow = 0 then "1"
    else trimEnd (xpart u.xpow ++ ypart u.ypow)
  else if u.coef = -1 then
    if u.xpow = 0 ∧ u.ypow = 0 then "- 1"
    else trimEnd ("- " ++ (xpart u.xpow ++ ypart u.ypow))
  else
    trimEnd
      ((if u.coef ≥ 0 then toString u.coef
        else "- " ++ toString (u.coef * -1)) ++ " "
        ++ (xpart u.xpow ++ ypart u.ypow))

end Unit

end ModPoly

namespace ModPoly

/-- Removing trailing whitespace is idempotent, so any string produced by
`trimEnd` has no trailing whitespace. -/
theorem trimEnd_trimEnd (s : String) : trimEnd (trimEnd s) = trimEnd s := by
  simp [trimEnd, List.dropWhile_idempotent]

/-- C1: for every pair of terms `a` and `b` where `b`'s coefficient is zero,
`divide a b` fails with the distinct, catchable `DivError.divisionByZero`
error rather than producing a value. -/
theorem divide_zero_divisor (a b : Unit) (h : b.coef = 0) :
    Unit.divide a b = Except.error DivError.divisionByZero := by
  simp [Unit.divide, h]

theorem divide_zero_divisor_witness :
    Unit.divide ⟨5, 2, 3⟩ ⟨0, 1, 1⟩ = Except.error DivError.divisionByZero :=
  divide_zero_divisor ⟨5, 2, 3⟩ ⟨0, 1, 1⟩ rfl

/-- C2: `mul` multiplies coefficients and adds the two exponents exactly,
and multiplying the coefficient-4 term by the coefficient-3 term (zero
exponents) yields a term rendering as `"12"`.  The single `mul` function
models both the by-value and the by-reference Rust operators, which
`impl_op_ex!` derives from one body, so they cannot differ. -/
theorem mul_spec (a b : Unit) :
    (Unit.mul a b).coef = a.coef * b.coef ∧
    (Unit.mul a b).xpow = a.xpow + b.xpow ∧
    (Unit.mul a b).ypow = a.ypow + b.ypow ∧
    Unit.display (Unit.mul ⟨4, 0, 0⟩ ⟨3, 0, 0⟩) = "12" :=
  ⟨rfl, rfl, rfl, rfl⟩

/-- C3: raising any term to the power 0 yields coefficient 1 and both
exponents 0, also when the coefficient is 0. -/
theorem power_zero (a : Unit) : Unit.power a 0 = ⟨1, 0, 0⟩ := by
  simp [Unit.power]

/-- C4: `to_frob` keeps the coefficient unchanged and multiplies both
exponents by `n`; with `n = 1` it is the identity. -/
theorem to_frob_spec (a : Unit) (n : ℕ) :
    (Unit.to_frob a n).coef = a.coef ∧
    (Unit.to_frob a n).xpow = a.xpow * n ∧
    (Unit.to_frob a n).ypow = a.ypow * n ∧
    Unit.to_frob a 1 = a := by
  refine ⟨rfl, rfl, rfl, ?_⟩
  simp [Unit.to_frob]

/-- C5: the comparison is determined by `xpow` first and `ypow` second,
ascending; the coefficient plays no role; and `equal_order a b` implies
that `a` and `b` compare equal, also when their coefficients differ. -/
theorem cmp_exponent_order (a b : Unit) (c d : ℤ) :
    (a.xpow < b.xpow → Unit.cmp a b = .lt) ∧
    (b.xpow < a.xpow → Unit.cmp a b = .gt) ∧
    (a.xpow = b.xpow → a.ypow < b.ypow → Unit.cmp a b = .lt) ∧
    (a.xpow = b.xpow → b.ypow < a.ypow → Unit.cmp a b = .gt) ∧
    Unit.cmp { a with coef := c } { b with coef := d } = Unit.cmp a b ∧
    (Unit.equal_order a b = true → Unit.cmp a b = .eq) := by
  refine ⟨fun h => ?_, fun h => ?_, fun h1 h2 => ?_, fun h1 h2 => ?_, rfl,
    fun h => ?_⟩
  all_goals try simp only [Unit.equal_order, Bool.and_eq_true, beq_iff_eq] at h
  all_goals try obtain ⟨h1, h2⟩ := h
  all_goals unfold Unit.cmp
  all_goals split_ifs <;> first | rfl | (exfalso; omega)

theorem cmp_exponent_order_witness :
    Unit.cmp ⟨5, 2, 3⟩ ⟨7, 2, 3⟩ = .eq :=
  (cmp_exponent_order ⟨5, 2, 3⟩ ⟨7, 2, 3⟩ 0 0).2.2.2.2.2 (by decide)

/-- C6: a term with coefficient 0 falls into the general coefficient branch
of the renderer, printing `"0"` with no sign, followed by the exponent
parts; the default-constructed term renders exactly `"0"`. -/
theorem display_zero_coefficient (u : Unit) (h : u.coef = 0) :
    u.display = trimEnd ("0" ++ " " ++ (Unit.xpart u.xpow ++ Unit.ypart u.ypow)) ∧
    Unit.display Unit.defaultUnit = "0" := by
  refine ⟨?_, rfl⟩
  simp only [Unit.display, h]
  norm_num
  rfl

theorem display_zero_coefficient_witness :
    Unit.display ⟨0, 2, 3⟩ = "0 x^2 y^3" :=
  ((display_zero_coefficient ⟨0, 2, 3⟩ rfl).1).trans (by rfl)

/-- C7 counterexample: for the term with coefficient 1 and both exponents
zero the renderer outputs exactly the decimal string of the coefficient,
`"1"` — i.e. it does print the literal coefficient digit — and likewise the
coefficient -1 term renders `"- 1"`, the sign prefix followed by the
coefficient's digit. -/
theorem display_unit_coef_prints_digit :
    Unit.display ⟨1, 0, 0⟩ = toString (1 : ℤ) ∧
    Unit.display ⟨-1, 0, 0⟩ = "- " ++ toString (1 : ℤ) :=
  ⟨rfl, rfl⟩

/-- C7 amended: when the coefficient is 1 or -1 and at least one exponent is
nonzero, the rendering consists only of the sign (for -1) and the exponent
parts, with no coefficient digit; when both exponents are zero it renders
`"1"` or `"- 1"`.  For every coefficient outside -1, 0, 1, the rendering
always starts with the coefficient's magnitude, prefixed by `"- "` exactly
when the coefficient is negative. -/
theorem display_coef_branches (u : Unit) :
    (u.coef = 1 → (u.xpow ≠ 0 ∨ u.ypow ≠ 0) →
      u.display = trimEnd (Unit.xpart u.xpow ++ Unit.ypart u.ypow)) ∧
    (u.coef = -1 → (u.xpow ≠ 0 ∨ u.ypow ≠ 0) →
      u.display = trimEnd ("- " ++ (Unit.xpart u.xpow ++ Unit.ypart u.ypow))) ∧
    (u.coef = 1 → u.xpow = 0 → u.ypow = 0 → u.display = "1") ∧
    (u.coef = -1 → u.xpow = 0 → u.ypow = 0 → u.display = "- 1") ∧
    (2 ≤ u.coef →
      u.display =
        trimEnd (toString u.coef ++ " " ++ (Unit.xpart u.xpow ++ Unit.ypart u.ypow))) ∧
    (u.coef ≤ -2 →
      u.display =
        trimEnd ("- " ++ toString (u.coef * -1) ++ " "
          ++ (Unit.xpart u.xpow ++ Unit.ypart u.ypow))) := by
  refine ⟨fun h hx => ?_, fun h hx => ?_, fun h h1 h2 => ?_, fun h h1 h2 => ?_,
    fun h => ?_, fun h => ?_⟩
  · rw [Unit.display, if_pos h, if_neg (by tauto)]
  · rw [Unit.display, if_neg (by omega), if_pos h, if_neg (by tauto)]
  · rw [Unit.display, if_pos h, if_pos ⟨h1, h2⟩]
  · rw [Unit.display, if_neg (by omega), if_pos h, if_pos ⟨h1, h2⟩]
  · rw [Unit.display, if_neg (by omega), if_neg (by omega), if_pos (by omega)]
  · rw [Unit.display, if_neg (by omega), if_neg (by omega), if_neg (by omega)]

theorem display_coef_branches_witness :
    Unit.display ⟨-1, 1, 3⟩ = "- x y^3" :=
  ((display_coef_branches ⟨-1, 1, 3⟩).2.1 rfl (Or.inl (by decide))).trans (by rfl)

/-- C8: for every nonzero modulus `m`, `modular` leaves the exponents
unchanged and takes the raw truncated remainder of the coefficient (the
sign convention of `BigInt`'s `%`, which follows the dividend), with no
normalization to a non-negative representative: reducing a coefficient of
-5 modulo 3 gives -2, not 1. -/
theorem modular_raw_remainder (a : Unit) (m : ℤ) (h : m ≠ 0) :
    Unit.modular a m = Except.ok ⟨Int.tmod a.coef m, a.xpow, a.ypow⟩ ∧
    Unit.modular ⟨-5, a.xpow, a.ypow⟩ 3 = Except.ok ⟨-2, a.xpow, a.ypow⟩ := by
  constructor
  · simp [Unit.modular, h]
  · simp [Unit.modular]
    rfl

theorem modular_raw_remainder_witness :
    Unit.modular ⟨-5, 0, 0⟩ 3 = Except.ok ⟨-2, 0, 0⟩ :=
  (modular_raw_remainder ⟨-5, 0, 0⟩ 3 (by decide)).2

/-- C9: the rendered string of every term has no trailing whitespace:
trimming trailing whitespace from it changes nothing. -/
theorem display_no_trailing_whitespace (u : Unit) :
    trimEnd (Unit.display u) = Unit.display u := by
  unfold Unit.display
  split_ifs <;> first | rfl | exact trimEnd_trimEnd _

/-- C10: multiplication of terms is commutative in all three fields. -/
theorem mul_comm_units (a b : Unit) : Unit.mul a b = Unit.mul b a := by
  simp [Unit.mul, mul_comm, add_comm]

end ModPoly
